import Mathlib

/-!
Verification of the junkNAS core against its specification.

The definitions below are a shallow embedding of the Rust sources:

  * `Ctrl`  — the controller metadata authority (`src/controller/src/fs.rs`)
    and the mesh endpoint (`src/controller/src/main.rs`).
  * `Alloc` — the placement engine (`src/agent/src/allocation.rs`).
  * `NatClass` — NAT classification and scoring (`src/agent/src/nat.rs`).
  * `Mesh`  — the chunk-store helpers (`src/agent/src/mesh.rs`,
    `src/agent/src/fuse_daemon.rs`).
  * `Agent` — the FUSE write path (`src/agent/src/fuse_daemon.rs`).

Machine integers (`u64`, `u32`) are modelled as `Nat`, with wrapping
arithmetic made explicit (`% 2 ^ 64`) at the operations where the Rust
code can overflow or underflow.  `f32` values (mesh scores, RTTs) are
modelled as exact rationals; where the Rust code can produce a NaN and
panic, the embedding makes that case explicit instead.  Hash maps are
modelled extensionally as `String → Option _` (controller state) or as
association lists where the code iterates over them (agent cache,
controller peer table).
-/

-- ===========================================================
-- Shared metadata types (fs_types.rs / controller fs.rs)
-- ===========================================================

/-- `FsNodeType` from `fs.rs` / `fs_types.rs`. -/
inductive FsNodeType where
  | File
  | Directory
deriving DecidableEq, Repr

/-- `ChunkMeta` from `fs.rs` / `fs_types.rs`; `index` is a `u64`. -/
structure ChunkMeta where
  index : Nat
  node_id : String
  drive_id : String
  chunk_hash : String
deriving DecidableEq, Repr

/-- `FsEntry` from `fs.rs` / `fs_types.rs`. -/
structure FsEntry where
  path : String
  node_type : FsNodeType
  size : Nat
  mode : Nat
  mtime : Nat
  ctime : Nat
  chunks : List ChunkMeta
  children : List String
deriving DecidableEq, Repr

namespace Ctrl

/-- The controller fs store `fs_entries : HashMap<String, FsEntry>`,
modelled extensionally by its lookup function. -/
def FsMap : Type := String → Option FsEntry

/-- `CreateRequest` from `fs.rs`. -/
structure CreateRequest where
  path : String
  node_type : FsNodeType
  mode : Nat
deriving DecidableEq, Repr

/-- The shared computation of `parent_of` and `name_of` from `fs.rs`:
both trim trailing slashes and split at the last remaining slash.
Returns `none` exactly when both source functions return `Err(())`:
for the root path or a path with no slash left after trimming.
On success returns `(parent, name)`. -/
def splitPath (path : String) : Option (String × String) :=
  if path = "/" then none
  else
    let s := (path.data.reverse.dropWhile (fun c => c = '/')).reverse
    match s.reverse.findIdx? (fun c => c = '/') with
    | none => none
    | some j =>
      let pos := s.length - 1 - j
      let parent := if pos = 0 then "/" else String.mk (s.take pos)
      some (parent, String.mk (s.drop (pos + 1)))

/-- `lookup` from `fs.rs`: 404 when the path has no entry. -/
def lookup (st : FsMap) (path : String) : Except Nat FsEntry :=
  match st path with
  | some x => Except.ok x
  | none => Except.error 404

/-- `create` from `fs.rs`.  `now` stands for `Utc::now().timestamp()`.
Note the code checks only that the parent path has an entry — it does
not check that the entry is a `Directory` — and it unconditionally
overwrites any existing entry at `req.path` with a fresh one.
The returned map is the post-state of `fs_entries`. -/
def create (st : FsMap) (now : Nat) (req : CreateRequest) :
    Except Nat FsEntry × FsMap :=
  if req.path = "/" then (Except.error 400, st)
  else
    match splitPath req.path with
    | none => (Except.error 400, st)
    | some (parent, name) =>
      if (st parent).isSome then
        let entry : FsEntry :=
          ⟨req.path, req.node_type, 0, req.mode, now, now, [], []⟩
        let st1 : FsMap := fun k =>
          if k = parent then
            (st parent).map (fun p =>
              if name ∈ p.children then p
              else { p with children := p.children ++ [name] })
          else st k
        let st2 : FsMap := fun k => if k = req.path then some entry else st1 k
        (Except.ok entry, st2)
      else (Except.error 400, st)

/-- `delete` from `fs.rs`.  The parent children `retain` runs before the
`remove(...).ok_or(404)` check, so on a 404 the parent has already been
modified; the embedding returns that intermediate state in the error case
exactly as the Rust store keeps it. -/
def delete (st : FsMap) (path : String) : Except Nat Unit × FsMap :=
  if path = "/" then (Except.error 400, st)
  else
    match splitPath path with
    | none => (Except.error 400, st)
    | some (parent, name) =>
      let st1 : FsMap := fun k =>
        if k = parent then
          (st parent).map (fun p =>
            { p with children := p.children.filter (fun c => c ≠ name) })
        else st k
      if (st1 path).isSome then
        (Except.ok (), fun k => if k = path then none else st1 k)
      else (Except.error 404, st1)

/-- `MeshPeer` from controller `main.rs`; `score` is an `f32`, modelled
as an exact rational. -/
structure MeshPeer where
  node_id : String
  endpoint : String
  public_key : String
  score : ℚ
  nat_type : Option String
deriving DecidableEq, Repr

/-- `WireGuardKeyPair` from controller `main.rs`. -/
structure WireGuardKeyPair where
  node_id : String
  public_key : String
  private_key : String
deriving DecidableEq, Repr

/-- The slice of the controller `NodeState` that `mesh_info` reads. -/
structure NodeMeshView where
  mesh_endpoint : Option String
  mesh_score : Option ℚ
  mesh_nat_type : Option String
deriving DecidableEq, Repr

/-- The slice of `ControllerState` that `mesh_info` reads.  The hash maps
are modelled as association lists in iteration order (`values()` of a
`HashMap` iterates in an arbitrary but fixed order; the embedding is
parametric in that order). -/
structure MeshState where
  mesh_peers : List MeshPeer
  wg_keys : List (String × WireGuardKeyPair)
  nodes : List (String × NodeMeshView)
deriving DecidableEq, Repr

/-- The peers vector built by `mesh_info`: all of `mesh_peers.values()`,
then for each dashboard-managed key whose node is not yet present, a peer
derived from the node record when it has a mesh endpoint. -/
def buildPeers (st : MeshState) : List MeshPeer :=
  st.wg_keys.foldl (fun peers kv =>
    if peers.any (fun p => p.node_id = kv.1) then peers
    else
      match List.lookup kv.1 st.nodes with
      | some node =>
        match node.mesh_endpoint with
        | some ep =>
          peers ++
            [⟨kv.1, ep, kv.2.public_key, node.mesh_score.getD 0,
              node.mesh_nat_type⟩]
        | none => peers
      | none => peers) st.mesh_peers

/-- One step of Rust `Iterator::max_by`: the accumulator is kept only
when the comparator returns Greater, so a tie moves to the new element
and the overall result is the LAST maximal element.  The comparator
`a.score.partial_cmp(&b.score).unwrap_or(Equal)` is the total comparison
on exact rationals (no NaN in the model). -/
def maxByStep (b x : MeshPeer) : MeshPeer :=
  if b.score > x.score then b else x

/-- `Iterator::max_by` over a non-empty list, seeded with its head. -/
def runMaxBy (p : MeshPeer) (ps : List MeshPeer) : MeshPeer :=
  ps.foldl maxByStep p

/-- `peers.iter().max_by(...)` from `mesh_info`. -/
def maxByScore : List MeshPeer → Option MeshPeer
  | [] => none
  | p :: ps => some (runMaxBy p ps)

/-- `mesh_info` from controller `main.rs`: returns the peers vector and
the elected gateway (the node id of the max-by-score peer). -/
def mesh_info (st : MeshState) : List MeshPeer × Option String :=
  let peers := buildPeers st
  (peers, (maxByScore peers).map MeshPeer.node_id)

end Ctrl

-- ===========================================================
-- NAT classification and scoring (src/agent/src/nat.rs)
-- ===========================================================

namespace NatClass

/-- `ConnectivityMode` from `nat.rs`. -/
inductive ConnectivityMode where
  | Direct
  | HolePunch
  | Relay
deriving DecidableEq, Repr

/-- `NatType` from `nat.rs`. -/
inductive NatType where
  | FullCone
  | RestrictedCone
  | PortRestrictedCone
  | Symmetric
  | Unknown
deriving DecidableEq, Repr

/-- An IPv4 socket address as produced by the STUN decoder in
`stun_request`: four address bytes and a port.  Equality is componentwise
(`SocketAddr` equality on two V4 addresses). -/
structure SockAddr where
  ip : Nat × Nat × Nat × Nat
  port : Nat
deriving DecidableEq, Repr

/-- `classify_nat` from `nat.rs`, branch for branch: equal observations,
then same-ip-different-port, then any remaining inequality, then the
fall-through `Ok(Unknown)`. -/
def classify_nat (o1 o2 : SockAddr) : Except String NatType :=
  if o1 = o2 then Except.ok NatType.FullCone
  else if o1.ip = o2.ip ∧ o1.port ≠ o2.port then
    Except.ok NatType.PortRestrictedCone
  else if o1 ≠ o2 then Except.ok NatType.Symmetric
  else Except.ok NatType.Unknown

/-- `f32::clamp(lo, hi)` on exact rationals (for `lo ≤ hi`). -/
def clampQ (x lo hi : ℚ) : ℚ := max lo (min hi x)

/-- The NAT base score table from `compute_score`. -/
def natBase : NatType → ℚ
  | NatType.FullCone => 1
  | NatType.RestrictedCone => 8 / 10
  | NatType.PortRestrictedCone => 6 / 10
  | NatType.Symmetric => 2 / 10
  | NatType.Unknown => 4 / 10

/-- `compute_score` from `nat.rs` over exact rationals: note the rtt
factor is clamped to [0,1] BEFORE being weighted, and the weighted sum is
clamped again. -/
def compute_score (nat_type : NatType) (rtt_ms : ℚ) : ℚ :=
  let rtt_factor := clampQ (1 - rtt_ms / 5000) 0 1
  clampQ (natBase nat_type * (7 / 10) + rtt_factor * (3 / 10)) 0 1

/-- Modelled from the claim C5 wording (and spec section 4.A): a single
clamp applied to the weighted sum as a whole, with the raw rtt term. -/
def claimScore (nat_type : NatType) (rtt_ms : ℚ) : ℚ :=
  clampQ ((7 / 10) * natBase nat_type + (3 / 10) * (1 - rtt_ms / 5000)) 0 1

end NatClass

-- ===========================================================
-- Placement engine (src/agent/src/allocation.rs)
-- ===========================================================

namespace Alloc

/-- `DriveStatus` from `allocation.rs`. -/
structure DriveStatus where
  drive_id : String
  free_bytes : Nat
  allocated_bytes : Nat
deriving DecidableEq, Repr

/-- `NodeStatus` from `allocation.rs`; `mesh_score` is an `f32`, modelled
as an exact rational. -/
structure NodeStatus where
  node_id : String
  mesh_score : ℚ
  drives : List DriveStatus
deriving DecidableEq, Repr

/-- `ClusterState` from `allocation.rs`. -/
structure ClusterState where
  nodes : List NodeStatus
deriving DecidableEq, Repr

/-- The per-node free byte sum `node.drives.iter().map(free_bytes).sum()`. -/
def nodeFree (n : NodeStatus) : Nat :=
  (n.drives.map DriveStatus.free_bytes).sum

/-- Outcomes of `allocate_chunk`: an `anyhow` error returned to the
caller, or a process panic.  The panic arises from
`candidates.sort_by(|a, b| b.1.partial_cmp(&a.1).unwrap())`: when
`max_free = 0` every free sum is 0 (it is their maximum), every rank is
`0.6 * score + 0.4 * (0.0 / 0.0) = NaN`, `partial_cmp` returns `None`
and the `unwrap` panics as soon as the sort compares two elements, which
happens exactly when the snapshot has at least two nodes. -/
inductive AllocErr where
  | err (msg : String)
  | nanCompare
deriving DecidableEq, Repr

/-- The rank `0.6 * mesh_score + 0.4 * (free / max_free)` over exact
rationals; meaningful only when `max_free ≠ 0` (the `max_free = 0` case
is the NaN panic handled in `allocate_chunk`). -/
def rank (max_free : Nat) (n : NodeStatus) : ℚ :=
  (6 / 10) * n.mesh_score + (4 / 10) * ((nodeFree n : ℚ) / (max_free : ℚ))

/-- The element the Rust code selects as `candidates[0]` after the stable
descending `sort_by`: the FIRST element attaining the maximal rank.  The
fold keeps the accumulator on ties, so it returns the first maximum. -/
def pickFirstMaxRank (max_free : Nat) (n : NodeStatus)
    (ns : List NodeStatus) : NodeStatus :=
  ns.foldl (fun b x => if rank max_free x > rank max_free b then x else b) n

/-- The drive the Rust code selects: `drives_sorted[0]` after a stable
descending sort by `free_bytes` (a total `u64` comparison), i.e. the
first drive with the most free bytes. -/
def pickFirstMaxFree (d : DriveStatus) (ds : List DriveStatus) :
    DriveStatus :=
  ds.foldl (fun b x => if x.free_bytes > b.free_bytes then x else b) d

/-- `allocate_chunk` from `allocation.rs`.  `max_free` is
`.map(free sums).max().unwrap_or(1)`: the `unwrap_or(1)` applies only to
an empty node list, which is already rejected, so for a non-empty
snapshot `max_free` is the plain maximum and CAN be 0 — that case is the
NaN comparator panic described at `AllocErr.nanCompare` (with a single
node the sort makes no comparison and the node is returned). -/
def allocate_chunk (_file_path : String) (chunk_idx : Nat)
    (cluster : ClusterState) (content_hash : String) :
    Except AllocErr ChunkMeta :=
  match cluster.nodes with
  | [] => Except.error (AllocErr.err "no nodes available")
  | n0 :: rest =>
    let max_free := (((n0 :: rest).map nodeFree).max?).getD 1
    if max_free = 0 ∧ 2 ≤ (n0 :: rest).length then
      Except.error AllocErr.nanCompare
    else
      let best := pickFirstMaxRank max_free n0 rest
      match best.drives with
      | [] => Except.error (AllocErr.err "node has zero drives")
      | d0 :: ds =>
        Except.ok
          ⟨chunk_idx, best.node_id, (pickFirstMaxFree d0 ds).drive_id,
            content_hash⟩

end Alloc

-- ===========================================================
-- Chunk store helpers (src/agent/src/mesh.rs, fuse_daemon.rs)
-- ===========================================================

namespace Mesh

/-- `PeerConnection` from `mesh.rs`. -/
structure PeerConnection where
  node_id : String
  addr : String
  mode : NatClass.ConnectivityMode
  nat_type : NatClass.NatType
deriving DecidableEq, Repr

/-- Observable effects of the chunk-store helpers: local filesystem
operations under the agent base directory, and overlay UDP sends. -/
inductive MeshEffect where
  | createDirAll (dir : String)
  | writeFile (path : String) (data : List Nat)
  | udpSend (addr : String) (data : List Nat)
deriving DecidableEq, Repr

/-- Whether an effect is a UDP send. -/
def MeshEffect.isUdpSend : MeshEffect → Bool
  | MeshEffect.udpSend _ _ => true
  | _ => false

/-- `internal_store_local_chunk` from `fuse_daemon.rs`: creates
`<base>/<drive_id>` and writes `<base>/<drive_id>/chunk_<index>`; the
`path` and `hash` arguments are ignored (named `_path`, `_hash` in the
source).  Filesystem writes are modelled as always succeeding. -/
def internal_store_local_chunk (base : String) (_path : String)
    (index : Nat) (drive_id : String) (data : List Nat) (_hash : String) :
    List MeshEffect :=
  [MeshEffect.createDirAll (base ++ "/" ++ drive_id),
   MeshEffect.writeFile (base ++ "/" ++ drive_id ++ "/chunk_" ++
     toString index) data]

/-- `store_remote_chunk` from `mesh.rs`: the transport argument is
ignored (`_transport` in the source) and the body is a single call to
`internal_store_local_chunk` with `drive_id := peer.node_id`. -/
def store_remote_chunk (base : String) (_transport : Unit)
    (peer : PeerConnection) (path : String) (index : Nat)
    (data : List Nat) : List MeshEffect :=
  internal_store_local_chunk base path index peer.node_id data ""

end Mesh

-- ===========================================================
-- FUSE write path (src/agent/src/fuse_daemon.rs)
-- ===========================================================

namespace Agent

/-- `CHUNK_SIZE`: 64 KiB. -/
def CHUNK : Nat := 65536

/-- `2 ^ 64`, the modulus of `u64` arithmetic. -/
def U64 : Nat := 18446744073709551616

/-- The ambient functions the write path uses, passed explicitly: the
stable path hash behind `inode_for`, SHA-256 as an uninterpreted digest
(no claim settled here depends on its value), the local and remote chunk
readers (`none` models an `Err`, which `write` replaces by a zero
buffer via `unwrap_or`), and the node ids of the active peers
(`mesh::get_active_peers`). -/
structure WriteEnv where
  inodeFor : String → Nat
  sha256hex : List Nat → String
  localRead : ChunkMeta → Option (List Nat)
  remoteRead : ChunkMeta → Option (List Nat)
  activePeers : List String

/-- The part of `JunkNasFs` that `write` reads: the agent node id and
the path-to-entry cache (a `HashMap`, modelled as an association list in
iteration order). -/
structure AgentFs where
  node_id : String
  cache : List (String × FsEntry)

/-- FUSE-visible outcomes of `write`: the errno values it returns, or a
process panic (`crash`): an out-of-range slice index in release builds,
or the underflow of `end_pos - 1` in debug builds, or a panic inside
`allocate_chunk`. -/
inductive FuseErr where
  | enoent
  | eio
  | crash
deriving DecidableEq, Repr

/-- Externally visible actions of one `write` call, in order.
`createRpc` is the `create(path, File, 0o644)` call the specification
describes; it is listed here so its absence from every trace produced by
`write` can be stated. -/
inductive Effect where
  | createRpc (path : String)
  | storeLocal (meta : ChunkMeta) (data : List Nat)
  | storeRemote (meta : ChunkMeta) (data : List Nat)
  | updateSize (path : String) (size : Nat)
  | updateChunks (path : String) (chunks : List ChunkMeta)

/-- `path_from_ino` from `fuse_daemon.rs`: the root inode, else a linear
scan of the cache values for an entry whose path hashes to `ino`. -/
def path_from_ino (env : WriteEnv) (cache : List (String × FsEntry))
    (ino : Nat) : Option String :=
  if ino = env.inodeFor "/" then some "/"
  else
    ((cache.map Prod.snd).find? (fun e => env.inodeFor e.path = ino)).map
      FsEntry.path

/-- `get_entry` from `fuse_daemon.rs`: cache hit, else a controller
lookup (`ctrl` is the authority `fs_entries` as observed over HTTP; the
transport is modelled as reliable), inserting any hit into the cache.
Returns the entry and the updated cache. -/
def get_entry (ctrl : String → Option FsEntry)
    (cache : List (String × FsEntry)) (path : String) :
    Option FsEntry × List (String × FsEntry) :=
  match List.lookup path cache with
  | some e => (some e, cache)
  | none =>
    match ctrl path with
    | some e => (some e, cache ++ [(path, e)])
    | none => (none, cache)

/-- `HashMap::insert` on the association-list cache: overwrite in place
or append. -/
def cacheInsert (cache : List (String × FsEntry)) (k : String)
    (v : FsEntry) : List (String × FsEntry) :=
  if (List.lookup k cache).isSome then
    cache.map (fun p => if p.1 = k then (k, v) else p)
  else cache ++ [(k, v)]

/-- `vec![0u8; n]`. -/
def zeros (n : Nat) : List Nat := List.replicate n 0

/-- Rust slice indexing `&data[a..b]`: panics (here `none`) unless
`a ≤ b` and `b ≤ data.len()`. -/
def sliceChecked (data : List Nat) (a b : Nat) : Option (List Nat) :=
  if a ≤ b ∧ b ≤ data.length then some ((data.drop a).take (b - a))
  else none

/-- `buf[off..off + src.len()].copy_from_slice(src)`; callers guarantee
`off + src.len() ≤ buf.len()`. -/
def overlayAt (buf : List Nat) (off : Nat) (src : List Nat) : List Nat :=
  buf.take off ++ src ++ buf.drop (off + src.length)

/-- State threaded through the write loop: the evolving chunk list
`new_chunks`, the byte counter `write_len`, and the effects so far. -/
structure LoopSt where
  chunks : List ChunkMeta
  writeLen : Nat
  effects : List Effect

/-- One iteration of the `for idx in offset/CHUNK ..= (end_pos-1)/CHUNK`
loop in `write`, statement for statement.  `u64` subtractions wrap as in
release-build Rust (`+ U64` then `% U64`); an out-of-range slice is a
panic.  A chunk with an existing ChunkMeta keeps its node and drive and
only updates the hash; a new chunk is placed by `allocate_chunk`, whose
`Err` becomes EIO and whose panic propagates.  The local store unwrap
and the remote store are modelled as succeeding whenever the peer is
active (`mesh::store_remote_chunk` itself cannot fail, see claim C8);
a store to an inactive peer is the `peer not found` error, hence EIO.
Errors carry the effects already performed. -/
def chunkStep (env : WriteEnv) (nodeId path : String)
    (cluster : Alloc.ClusterState) (offset : Nat) (data : List Nat)
    (end_pos idx : Nat) (st : LoopSt) :
    Except (FuseErr × List Effect) LoopSt :=
  let chunk_start := (idx * CHUNK) % U64
  let chunk_end := (chunk_start + CHUNK) % U64
  let start := max offset chunk_start
  let endv := min end_pos chunk_end
  let start_off := (start + U64 - offset) % U64
  let end_off := (endv + U64 - offset) % U64
  match sliceChecked data start_off end_off with
  | none => Except.error (FuseErr.crash, st.effects)
  | some chunk_new =>
    let writeLen := st.writeLen + chunk_new.length
    let merged0 := zeros CHUNK
    let merged1 :=
      match st.chunks.find? (fun c => c.index = idx) with
      | some old_meta =>
        let old_data :=
          (if old_meta.node_id = nodeId then env.localRead old_meta
           else env.remoteRead old_meta).getD (zeros CHUNK)
        overlayAt merged0 0
          (old_data.take (min merged0.length old_data.length))
      | none => merged0
    let end_idx := min (start_off + chunk_new.length) merged1.length
    let merged :=
      if start_off < end_idx then
        overlayAt merged1 start_off (chunk_new.take (end_idx - start_off))
      else merged1
    let hash_hex := env.sha256hex merged
    match
      (match st.chunks.find? (fun c => c.index = idx) with
       | some existing =>
         Except.ok { existing with index := idx, chunk_hash := hash_hex }
       | none => Alloc.allocate_chunk path idx cluster hash_hex)
    with
    | Except.error (Alloc.AllocErr.err _) =>
      Except.error (FuseErr.eio, st.effects)
    | Except.error Alloc.AllocErr.nanCompare =>
      Except.error (FuseErr.crash, st.effects)
    | Except.ok meta =>
      let chunks :=
        match st.chunks.findIdx? (fun c => c.index = idx) with
        | some i => st.chunks.set i meta
        | none => st.chunks ++ [meta]
      if meta.node_id = nodeId then
        Except.ok ⟨chunks, writeLen,
          st.effects ++ [Effect.storeLocal meta merged]⟩
      else if meta.node_id ∈ env.activePeers then
        Except.ok ⟨chunks, writeLen,
          st.effects ++ [Effect.storeRemote meta merged]⟩
      else Except.error (FuseErr.eio, st.effects)

/-- The loop, fuelled by its iteration count `last + 1 - first` (which
can be astronomically large after a `u64` wrap); execution stops at the
first error. -/
def writeLoop (env : WriteEnv) (nodeId path : String)
    (cluster : Alloc.ClusterState) (offset : Nat) (data : List Nat)
    (end_pos : Nat) :
    Nat → Nat → LoopSt → Except (FuseErr × List Effect) LoopSt
  | 0, _, st => Except.ok st
  | fuel + 1, idx, st =>
    match chunkStep env nodeId path cluster offset data end_pos idx st with
    | Except.error e => Except.error e
    | Except.ok st2 =>
      writeLoop env nodeId path cluster offset data end_pos fuel
        (idx + 1) st2

/-- The outcome of one `write` call: the FUSE reply (bytes written or an
error), the effects in order, and the cache afterwards. -/
structure WriteOut where
  result : Except FuseErr Nat
  effects : List Effect
  cache : List (String × FsEntry)

/-- `write` from `fuse_daemon.rs`: resolve the inode, fetch the entry
(ENOENT when absent — note: no `create` call), compute the chunk range
`offset/CHUNK ..= (end_pos - 1)/CHUNK` with wrapping `u64` subtraction,
run the merge-hash-place-store loop, then report the new size
`max(end_pos, old size)` and the new chunk list to the controller and
update the cache.  The two controller update RPCs are modelled as
reliable. -/
def write (env : WriteEnv) (fs : AgentFs)
    (ctrl : String → Option FsEntry) (cluster : Alloc.ClusterState)
    (ino offset : Nat) (data : List Nat) : WriteOut :=
  match path_from_ino env fs.cache ino with
  | none => ⟨Except.error FuseErr.enoent, [], fs.cache⟩
  | some path =>
    match get_entry ctrl fs.cache path with
    | (none, cache1) => ⟨Except.error FuseErr.enoent, [], cache1⟩
    | (some entry, cache1) =>
      let end_pos := (offset + data.length) % U64
      let first := offset / CHUNK
      let last := ((end_pos + U64 - 1) % U64) / CHUNK
      match writeLoop env fs.node_id path cluster offset data end_pos
          (last + 1 - first) first ⟨entry.chunks, 0, []⟩ with
      | Except.error e => ⟨Except.error e.1, e.2, cache1⟩
      | Except.ok st =>
        let new_size := max end_pos entry.size
        let new_entry := { entry with size := new_size, chunks := st.chunks }
        ⟨Except.ok st.writeLen,
         st.effects ++ [Effect.updateSize path new_size,
           Effect.updateChunks path st.chunks],
         cacheInsert cache1 path new_entry⟩

end Agent

-- ===========================================================
-- Concrete states used by counterexamples and witnesses
-- ===========================================================

/-- Environment for the C1 scenario: every path hashes to inode 1, so
ino 1 resolves to the root path; the digest and chunk readers are never
reached. -/
def c1Env : Agent.WriteEnv :=
  ⟨fun _ => 1, fun _ => "", fun _ => none, fun _ => none, []⟩

/-- An agent with an empty cache. -/
def c1Fs : Agent.AgentFs := ⟨"n1", []⟩

/-- A controller with no entries at all. -/
def c1Ctrl : String → Option FsEntry := fun _ => none

/-- An empty cluster snapshot (never reached in the C1 scenario). -/
def c1Cluster : Alloc.ClusterState := ⟨[]⟩

/-- Environment for the C2 scenario: the root hashes to inode 1 and
every other path to 2; the digest is uninterpreted; chunk readers are
never consulted (the file has no chunks yet). -/
def c2Env : Agent.WriteEnv :=
  ⟨fun s => if s = "/" then 1 else 2, fun _ => "", fun _ => none,
   fun _ => none, []⟩

/-- The cached File entry at `/a`: size 5, no chunks. -/
def c2Entry : FsEntry := ⟨"/a", FsNodeType.File, 5, 420, 0, 0, [], []⟩

/-- An agent whose cache holds `/a`. -/
def c2Fs : Agent.AgentFs := ⟨"n1", [("/a", c2Entry)]⟩

/-- A controller that also has no entries (the C2 write is served from
the cache). -/
def c2Ctrl : String → Option FsEntry := fun _ => none

/-- A healthy one-node cluster so that allocation succeeds. -/
def c2Cluster : Alloc.ClusterState := ⟨[⟨"n1", 1 / 2, [⟨"d1", 100, 0⟩]⟩]⟩

/-- A snapshot of two nodes, one drive each, every drive reporting zero
free bytes: `max_free` computes to 0, so the ranks are NaN. -/
def c3Cluster : Alloc.ClusterState :=
  ⟨[⟨"a", 1 / 2, [⟨"da", 0, 0⟩]⟩, ⟨"b", 9 / 10, [⟨"db", 0, 0⟩]⟩]⟩

/-- A controller mesh state with two peers tied at the same score. -/
def c6St : Ctrl.MeshState :=
  ⟨[⟨"a", "e1", "k1", 1 / 2, none⟩, ⟨"b", "e2", "k2", 1 / 2, none⟩], [], []⟩

/-- A controller mesh state with three peers, the last two tied at the
maximal score. -/
def c6wSt : Ctrl.MeshState :=
  ⟨[⟨"a", "e1", "k1", 3 / 10, none⟩, ⟨"b", "e2", "k2", 9 / 10, none⟩,
    ⟨"c", "e3", "k3", 9 / 10, none⟩], [], []⟩

/-- A store holding the root directory and a File at `/f` (the File has
an entry, so it can be used as a parent path in `create`). -/
def c4St : Ctrl.FsMap := fun k =>
  if k = "/" then some ⟨"/", FsNodeType.Directory, 0, 493, 3, 3, [], ["f"]⟩
  else if k = "/f" then some ⟨"/f", FsNodeType.File, 0, 420, 3, 3, [], []⟩
  else none

/-- A store holding only the root directory. -/
def c7Root : Ctrl.FsMap := fun k =>
  if k = "/" then some ⟨"/", FsNodeType.Directory, 0, 493, 0, 0, [], []⟩
  else none

/-- A store holding the root directory (listing child `a`) and a File at
`/a` with one chunk recorded, used to exercise re-creation over an
existing entry. -/
def c10St : Ctrl.FsMap := fun k =>
  if k = "/" then some ⟨"/", FsNodeType.Directory, 0, 493, 1, 1, [], ["a"]⟩
  else if k = "/a" then
    some ⟨"/a", FsNodeType.File, 5, 420, 2, 2, [⟨0, "n1", "d1", "h0"⟩], []⟩
  else none

-- ===========================================================
-- Theorems
-- ===========================================================

namespace Ctrl

/-- Helper: the exact result of a successful `create`, for a request whose
path splits as `(par, nm)` and whose parent has an entry `pe`. -/
theorem create_ok_eq (st : FsMap) (now : Nat) (req : CreateRequest)
    (par nm : String) (pe : FsEntry)
    (hp : req.path ≠ "/") (hsplit : splitPath req.path = some (par, nm))
    (hpar : st par = some pe) :
    create st now req =
      (Except.ok ⟨req.path, req.node_type, 0, req.mode, now, now, [], []⟩,
       fun k =>
         if k = req.path then
           some ⟨req.path, req.node_type, 0, req.mode, now, now, [], []⟩
         else if k = par then
           some (if nm ∈ pe.children then pe
             else { pe with children := pe.children ++ [nm] })
         else st k) := by
  simp only [create, if_neg hp, hsplit, hpar, Option.isSome_some, if_true,
    Option.map_some']

end Ctrl

/-- Claim C4, counterexample: starting from a store whose entry `/f` is a
File, `create("/f/x", File, 0o644)` is accepted and performed: it returns
the fresh entry, installs `/f/x`, leaves `/f` a File, and pushes `x` onto
the children list of that File.  The claim said such a create is rejected
and that every operation preserves the parent-is-a-Directory invariant. -/
theorem c4_create_under_file_cex :
    (Ctrl.create c4St 4 ⟨"/f/x", FsNodeType.File, 420⟩).1 =
      Except.ok ⟨"/f/x", FsNodeType.File, 0, 420, 4, 4, [], []⟩ ∧
    (Ctrl.create c4St 4 ⟨"/f/x", FsNodeType.File, 420⟩).2 "/f/x" =
      some ⟨"/f/x", FsNodeType.File, 0, 420, 4, 4, [], []⟩ ∧
    ((Ctrl.create c4St 4 ⟨"/f/x", FsNodeType.File, 420⟩).2 "/f").map
        FsEntry.node_type = some FsNodeType.File ∧
    ((Ctrl.create c4St 4 ⟨"/f/x", FsNodeType.File, 420⟩).2 "/f").map
        FsEntry.children = some ["x"] := ⟨rfl, rfl, rfl, rfl⟩

/-- Claim C4, amended: `create` checks only that the parent path has an
entry, not that the entry is a Directory.  Whenever the parent path has
any entry `pe` — File or Directory — the create succeeds, the parent
keeps its node type, and the basename is added to the parent children
list (if not already present). -/
theorem c4_create_no_parent_type_check (st : Ctrl.FsMap) (now : Nat)
    (req : Ctrl.CreateRequest) (par nm : String) (pe : FsEntry)
    (hsplit : Ctrl.splitPath req.path = some (par, nm))
    (hpar : st par = some pe)
    (hpne : par ≠ req.path) :
    ∃ st2, Ctrl.create st now req =
        (Except.ok ⟨req.path, req.node_type, 0, req.mode, now, now, [], []⟩,
          st2) ∧
      ∃ pe2, st2 par = some pe2 ∧ pe2.node_type = pe.node_type ∧
        nm ∈ pe2.children := by
  have hp : req.path ≠ "/" := by
    intro h; rw [h] at hsplit; simp [Ctrl.splitPath] at hsplit
  have hc := Ctrl.create_ok_eq st now req par nm pe hp hsplit hpar
  refine ⟨_, hc, ?_⟩
  simp only [if_neg hpne, if_pos rfl]
  refine ⟨_, rfl, ?_, ?_⟩
  · by_cases hmem : nm ∈ pe.children <;> simp [hmem]
  · by_cases hmem : nm ∈ pe.children <;> simp [hmem]

/-- Claim C4, witness for the amended theorem, instantiated at the store
`c4St` whose parent entry `/f` is a File. -/
theorem c4_create_no_parent_type_check_w :
    (Ctrl.splitPath "/f/x" = some ("/f", "x") ∧
      c4St "/f" = some ⟨"/f", FsNodeType.File, 0, 420, 3, 3, [], []⟩ ∧
      "/f" ≠ "/f/x") ∧
    (∃ st2, Ctrl.create c4St 4 ⟨"/f/x", FsNodeType.File, 420⟩ =
        (Except.ok ⟨"/f/x", FsNodeType.File, 0, 420, 4, 4, [], []⟩, st2) ∧
      ∃ pe2, st2 "/f" = some pe2 ∧
        pe2.node_type = (⟨"/f", FsNodeType.File, 0, 420, 3, 3, [], []⟩ :
          FsEntry).node_type ∧
        "x" ∈ pe2.children) :=
  ⟨⟨by decide, rfl, by decide⟩,
    c4_create_no_parent_type_check c4St 4 ⟨"/f/x", FsNodeType.File, 420⟩
      "/f" "x" _ (by decide) rfl (by decide)⟩

/-- Claim C7: for any path `p` whose parent exists as a Directory,
`create(p)` succeeds, a following `lookup(p)` returns the created entry,
`delete(p)` then succeeds, and a final `lookup(p)` returns 404. -/
theorem c7_create_lookup_delete_roundtrip (st : Ctrl.FsMap) (now : Nat)
    (p par nm : String) (t : FsNodeType) (mode : Nat) (e : FsEntry)
    (hsplit : Ctrl.splitPath p = some (par, nm))
    (hpar : st par = some e) (hdir : e.node_type = FsNodeType.Directory) :
    ∃ ne st1 st2,
      Ctrl.create st now ⟨p, t, mode⟩ = (Except.ok ne, st1) ∧
      Ctrl.lookup st1 p = Except.ok ne ∧
      Ctrl.delete st1 p = (Except.ok (), st2) ∧
      Ctrl.lookup st2 p = Except.error 404 := by
  have hp : p ≠ "/" := by
    intro h; subst h; simp [Ctrl.splitPath] at hsplit
  have hc := Ctrl.create_ok_eq st now ⟨p, t, mode⟩ par nm e hp hsplit hpar
  set ne : FsEntry := ⟨p, t, 0, mode, now, now, [], []⟩ with hne
  set st1 : Ctrl.FsMap := fun k =>
    if k = p then some ne
    else if k = par then
      some (if nm ∈ e.children then e
        else { e with children := e.children ++ [nm] })
    else st k with hst1
  have hst1p : st1 p = some ne := by simp [hst1]
  set st1d : Ctrl.FsMap := fun k =>
    if k = par then
      (st1 par).map (fun q =>
        { q with children := q.children.filter (fun c => c ≠ nm) })
    else st1 k with hst1d
  have hst1dp : (st1d p).isSome := by
    by_cases hpp : p = par
    · rw [hst1d]; simp only [if_pos hpp]
      rw [← hpp, hst1p]; simp
    · rw [hst1d]; simp only [if_neg hpp]
      rw [hst1p]; simp
  have hd : Ctrl.delete st1 p =
      (Except.ok (), fun k => if k = p then none else st1d k) := by
    simp only [Ctrl.delete, if_neg hp, hsplit]
    rw [if_pos]
    exact hst1dp
  refine ⟨ne, st1, fun k => if k = p then none else st1d k, hc, ?_, hd, ?_⟩
  · simp [Ctrl.lookup, hst1p]
  · simp [Ctrl.lookup]

/-- Claim C7, witness: the round trip on a store holding only the root
directory, at path `/a.txt`. -/
theorem c7_create_lookup_delete_roundtrip_w :
    (Ctrl.splitPath "/a.txt" = some ("/", "a.txt") ∧
      c7Root "/" = some ⟨"/", FsNodeType.Directory, 0, 493, 0, 0, [], []⟩ ∧
      (⟨"/", FsNodeType.Directory, 0, 493, 0, 0, [], []⟩ :
        FsEntry).node_type = FsNodeType.Directory) ∧
    (∃ ne st1 st2,
      Ctrl.create c7Root 7 ⟨"/a.txt", FsNodeType.File, 420⟩ =
        (Except.ok ne, st1) ∧
      Ctrl.lookup st1 "/a.txt" = Except.ok ne ∧
      Ctrl.delete st1 "/a.txt" = (Except.ok (), st2) ∧
      Ctrl.lookup st2 "/a.txt" = Except.error 404) :=
  ⟨⟨by decide, rfl, rfl⟩,
    c7_create_lookup_delete_roundtrip c7Root 7 "/a.txt" "/" "a.txt"
      FsNodeType.File 420 _ (by decide) rfl rfl⟩

/-- Claim C10: re-creating a path that already has an entry (with an
existing parent) does not fail: the old entry — its size, chunks and
children included — is replaced by a fresh one with size 0, no chunks and
no children, and the parent children list holds the basename exactly once
(assuming it held it at most once before, which is the children
uniqueness invariant of the store). -/
theorem c10_create_overwrites_existing (st : Ctrl.FsMap) (now : Nat)
    (req : Ctrl.CreateRequest) (par nm : String) (pe old : FsEntry)
    (hsplit : Ctrl.splitPath req.path = some (par, nm))
    (hold : st req.path = some old)
    (hpar : st par = some pe)
    (hpne : par ≠ req.path)
    (huniq : pe.children.count nm ≤ 1) :
    ∃ st2, Ctrl.create st now req =
        (Except.ok ⟨req.path, req.node_type, 0, req.mode, now, now, [], []⟩,
          st2) ∧
      st2 req.path =
        some ⟨req.path, req.node_type, 0, req.mode, now, now, [], []⟩ ∧
      ∃ pe2, st2 par = some pe2 ∧ pe2.children.count nm = 1 := by
  have hp : req.path ≠ "/" := by
    intro h; rw [h] at hsplit; simp [Ctrl.splitPath] at hsplit
  have hc := Ctrl.create_ok_eq st now req par nm pe hp hsplit hpar
  refine ⟨_, hc, ?_, ?_⟩
  · simp
  · simp only [if_neg hpne, if_pos rfl]
    refine ⟨_, rfl, ?_⟩
    by_cases hmem : nm ∈ pe.children
    · have hpos : 0 < pe.children.count nm := List.count_pos_iff.mpr hmem
      simp only [if_pos hmem]
      omega
    · have hz : pe.children.count nm = 0 := List.count_eq_zero.mpr hmem
      simp only [if_neg hmem, List.count_append, hz]
      simp

/-- Claim C10, witness: re-creating `/a` over an existing entry that has a
chunk, in the store `c10St`. -/
theorem c10_create_overwrites_existing_w :
    (Ctrl.splitPath "/a" = some ("/", "a") ∧
      c10St "/a" =
        some ⟨"/a", FsNodeType.File, 5, 420, 2, 2, [⟨0, "n1", "d1", "h0"⟩],
          []⟩ ∧
      c10St "/" = some ⟨"/", FsNodeType.Directory, 0, 493, 1, 1, [], ["a"]⟩ ∧
      "/" ≠ "/a" ∧
      (⟨"/", FsNodeType.Directory, 0, 493, 1, 1, [], ["a"]⟩ :
        FsEntry).children.count "a" ≤ 1) ∧
    (∃ st2, Ctrl.create c10St 9 ⟨"/a", FsNodeType.File, 420⟩ =
        (Except.ok ⟨"/a", FsNodeType.File, 0, 420, 9, 9, [], []⟩, st2) ∧
      st2 "/a" = some ⟨"/a", FsNodeType.File, 0, 420, 9, 9, [], []⟩ ∧
      ∃ pe2, st2 "/" = some pe2 ∧ pe2.children.count "a" = 1) :=
  ⟨⟨by decide, rfl, rfl, by decide, by decide⟩,
    c10_create_overwrites_existing c10St 9 ⟨"/a", FsNodeType.File, 420⟩
      "/" "a" _ _ (by decide) rfl rfl (by decide) (by decide)⟩

namespace Ctrl

/-- Helper: the fold underlying `max_by` returns an element of the list
that attains the maximal score and is the LAST to attain it: everything
strictly after it in the list scores strictly less. -/
theorem runMaxBy_last_max (p : MeshPeer) (ps : List MeshPeer) :
    ∃ l1 l2, p :: ps = l1 ++ runMaxBy p ps :: l2 ∧
      (∀ q ∈ p :: ps, q.score ≤ (runMaxBy p ps).score) ∧
      (∀ q ∈ l2, q.score < (runMaxBy p ps).score) := by
  induction ps generalizing p with
  | nil =>
    refine ⟨[], [], rfl, ?_, ?_⟩
    · intro q hq
      simp only [List.mem_singleton] at hq
      subst hq
      exact le_refl _
    · intro q hq
      simp at hq
  | cons x xs ih =>
    have hstep : runMaxBy p (x :: xs) = runMaxBy (maxByStep p x) xs := rfl
    by_cases hpx : p.score > x.score
    · have hacc : maxByStep p x = p := if_pos hpx
      obtain ⟨l1, l2, hdec, hub, hlt⟩ := ih p
      rw [hstep, hacc]
      have hpm : p.score ≤ (runMaxBy p xs).score :=
        hub p (List.mem_cons_self _ _)
      cases l1 with
      | nil =>
        simp only [List.nil_append, List.cons.injEq] at hdec
        obtain ⟨hm, hl2⟩ := hdec
        refine ⟨[], x :: xs, ?_, ?_, ?_⟩
        · rw [List.nil_append, ← hm]
        · intro q hq
          rcases List.mem_cons.mp hq with h | hq2
          · subst h; exact hpm
          · rcases List.mem_cons.mp hq2 with h | hq3
            · subst h; exact le_of_lt (lt_of_lt_of_le hpx hpm)
            · exact hub q (List.mem_cons_of_mem _ hq3)
        · intro q hq
          rcases List.mem_cons.mp hq with h | hq2
          · subst h; exact lt_of_lt_of_le hpx hpm
          · exact hlt q (hl2 ▸ hq2)
      | cons a t =>
        simp only [List.cons_append, List.cons.injEq] at hdec
        obtain ⟨hap, hxs⟩ := hdec
        refine ⟨p :: x :: t, l2, ?_, ?_, hlt⟩
        · simp only [List.cons_append]
          exact congrArg (fun l => p :: x :: l) hxs
        · intro q hq
          rcases List.mem_cons.mp hq with h | hq2
          · subst h; exact hpm
          · rcases List.mem_cons.mp hq2 with h | hq3
            · subst h; exact le_of_lt (lt_of_lt_of_le hpx hpm)
            · exact hub q (List.mem_cons_of_mem _ hq3)
    · have hacc : maxByStep p x = x := if_neg hpx
      have hple : p.score ≤ x.score := le_of_not_lt hpx
      obtain ⟨l1, l2, hdec, hub, hlt⟩ := ih x
      rw [hstep, hacc]
      refine ⟨p :: l1, l2, ?_, ?_, hlt⟩
      · rw [List.cons_append, ← hdec]
      · intro q hq
        rcases List.mem_cons.mp hq with h | hq2
        · subst h
          exact le_trans hple (hub x (List.mem_cons_self _ _))
        · exact hub q hq2

end Ctrl

/-- Claim C3 (code bug evidence): on the non-empty snapshot `c3Cluster`
(two nodes, each with one drive, all free byte counts zero, so the
chosen node would have a drive), `allocate_chunk` does not return a
ChunkMeta: `max_free` is the plain maximum 0 — the `unwrap_or(1)` floor
applies only to an empty node list — every rank is NaN, and the sort
comparator `partial_cmp(...).unwrap()` panics. -/
theorem c3_allocate_chunk_nan_panic :
    Alloc.allocate_chunk "/f" 0 c3Cluster "h" =
      Except.error Alloc.AllocErr.nanCompare := rfl

/-- Claim C5, counterexample: at `rtt_ms = 10000 ≥ 0`, `compute_score`
for FullCone returns 0.7 (the rtt factor is clamped to 0 before
weighting), while the claim formula — one clamp around the whole
weighted sum — yields 0.4. -/
theorem c5_compute_score_cex :
    (0 : ℚ) ≤ 10000 ∧
    NatClass.compute_score NatClass.NatType.FullCone 10000 = 7 / 10 ∧
    NatClass.claimScore NatClass.NatType.FullCone 10000 = 2 / 5 ∧
    NatClass.compute_score NatClass.NatType.FullCone 10000 ≠
      NatClass.claimScore NatClass.NatType.FullCone 10000 := by
  refine ⟨by norm_num, ?_, ?_, ?_⟩ <;>
    norm_num [NatClass.compute_score, NatClass.claimScore, NatClass.clampQ,
      NatClass.natBase, min_def, max_def]

/-- Claim C5, amended: `compute_score` clamps the rtt factor
`1 - rtt_ms/5000` to [0,1] BEFORE weighting it.  For `rtt_ms` in
[0, 5000] this agrees with the claim formula
`clamp(0.7 * nat_base + 0.3 * (1 - rtt_ms/5000), 0, 1)`; for
`rtt_ms ≥ 5000` the rtt factor is 0 and the score is
`0.7 * nat_base`. -/
theorem c5_score_clamps_rtt_factor_first (nt : NatClass.NatType)
    (rtt : ℚ) :
    (0 ≤ rtt → rtt ≤ 5000 →
      NatClass.compute_score nt rtt = NatClass.claimScore nt rtt) ∧
    (5000 ≤ rtt →
      NatClass.compute_score nt rtt = (7 / 10) * NatClass.natBase nt) := by
  constructor
  · intro h0 h5
    have h1 : 0 ≤ 1 - rtt / 5000 := by
      rw [sub_nonneg]
      exact (div_le_one (by norm_num)).mpr h5
    have h2 : 1 - rtt / 5000 ≤ 1 := by
      have hd : 0 ≤ rtt / 5000 := div_nonneg h0 (by norm_num)
      linarith
    have hfac : NatClass.clampQ (1 - rtt / 5000) 0 1 = 1 - rtt / 5000 := by
      unfold NatClass.clampQ
      rw [min_eq_right h2, max_eq_right h1]
    simp only [NatClass.compute_score, NatClass.claimScore, hfac]
    congr 1
    ring
  · intro h5
    have hx : 1 - rtt / 5000 ≤ 0 := by
      rw [sub_nonpos]
      exact (one_le_div (by norm_num)).mpr h5
    have hfac : NatClass.clampQ (1 - rtt / 5000) 0 1 = 0 := by
      unfold NatClass.clampQ
      rw [min_eq_right (hx.trans zero_le_one), max_eq_left hx]
    simp only [NatClass.compute_score, hfac]
    cases nt <;> norm_num [NatClass.clampQ, NatClass.natBase]

/-- Claim C5, witness for the amended theorem at FullCone and
`rtt_ms = 5000`, where both conjuncts apply. -/
theorem c5_score_clamps_rtt_factor_first_w :
    ((0 : ℚ) ≤ 5000 ∧ (5000 : ℚ) ≤ 5000) ∧
    NatClass.compute_score NatClass.NatType.FullCone 5000 =
      NatClass.claimScore NatClass.NatType.FullCone 5000 ∧
    NatClass.compute_score NatClass.NatType.FullCone 5000 =
      (7 / 10) * NatClass.natBase NatClass.NatType.FullCone :=
  ⟨⟨by norm_num, by norm_num⟩,
    (c5_score_clamps_rtt_factor_first NatClass.NatType.FullCone 5000).1
      (by norm_num) (by norm_num),
    (c5_score_clamps_rtt_factor_first NatClass.NatType.FullCone 5000).2
      (by norm_num)⟩

/-- Claim C6, counterexample: with two peers tied at the maximal score,
`mesh_info` elects the LAST of them (`Iterator::max_by` keeps the later
element on ties), not the first seen as the claim states. -/
theorem c6_gateway_tie_cex :
    Ctrl.buildPeers c6St =
      [⟨"a", "e1", "k1", 1 / 2, none⟩, ⟨"b", "e2", "k2", 1 / 2, none⟩] ∧
    (⟨"a", "e1", "k1", 1 / 2, none⟩ : Ctrl.MeshPeer).score =
      (⟨"b", "e2", "k2", 1 / 2, none⟩ : Ctrl.MeshPeer).score ∧
    (Ctrl.mesh_info c6St).2 = some "b" ∧ ("b" : String) ≠ "a" := by
  have hne : ¬((1 : ℚ) / 2 > 1 / 2) := by norm_num
  have hstep : Ctrl.maxByStep ⟨"a", "e1", "k1", 1 / 2, none⟩
      ⟨"b", "e2", "k2", 1 / 2, none⟩ = ⟨"b", "e2", "k2", 1 / 2, none⟩ := by
    simp [Ctrl.maxByStep, hne]
  refine ⟨rfl, rfl, ?_, by decide⟩
  show (Ctrl.maxByScore (Ctrl.buildPeers c6St)).map
    Ctrl.MeshPeer.node_id = some "b"
  have hbp : Ctrl.buildPeers c6St =
      [⟨"a", "e1", "k1", 1 / 2, none⟩, ⟨"b", "e2", "k2", 1 / 2, none⟩] := rfl
  rw [hbp]
  simp only [Ctrl.maxByScore, Ctrl.runMaxBy, List.foldl, Option.map_some']
  rw [hstep]

/-- Claim C6, amended: for a non-empty peers vector, `mesh_info` elects
a peer of maximal score; when several peers tie at the maximum it
returns the LAST such peer in iteration order (every peer after the
elected one scores strictly less). -/
theorem c6_gateway_elects_last_max (st : Ctrl.MeshState)
    (h : Ctrl.buildPeers st ≠ []) :
    ∃ p l1 l2,
      (Ctrl.mesh_info st).2 = some p.node_id ∧
      Ctrl.buildPeers st = l1 ++ p :: l2 ∧
      (∀ q ∈ Ctrl.buildPeers st, q.score ≤ p.score) ∧
      (∀ q ∈ l2, q.score < p.score) := by
  cases hb : Ctrl.buildPeers st with
  | nil => exact absurd hb h
  | cons p0 ps =>
    obtain ⟨l1, l2, hdec, hub, hlt⟩ := Ctrl.runMaxBy_last_max p0 ps
    refine ⟨Ctrl.runMaxBy p0 ps, l1, l2, ?_, ?_, ?_, hlt⟩
    · simp only [Ctrl.mesh_info, hb, Ctrl.maxByScore, Option.map_some']
    · exact hdec
    · intro q hq
      exact hub q hq

/-- Claim C6, witness for the amended theorem on the three-peer state
`c6wSt` (scores 0.3, 0.9, 0.9). -/
theorem c6_gateway_elects_last_max_w :
    Ctrl.buildPeers c6wSt ≠ [] ∧
    (∃ p l1 l2,
      (Ctrl.mesh_info c6wSt).2 = some p.node_id ∧
      Ctrl.buildPeers c6wSt = l1 ++ p :: l2 ∧
      (∀ q ∈ Ctrl.buildPeers c6wSt, q.score ≤ p.score) ∧
      (∀ q ∈ l2, q.score < p.score)) :=
  ⟨by decide, c6_gateway_elects_last_max c6wSt (by decide)⟩

/-- Claim C8: `store_remote_chunk` is exactly
`internal_store_local_chunk` with `drive_id := peer.node_id`: it writes
the bytes under the calling agent own base directory at
`<base>/<peer.node_id>/chunk_<index>` and performs no UDP send, for
every peer, path, index and data. -/
theorem c8_store_remote_chunk_is_local_write (base : String)
    (peer : Mesh.PeerConnection) (path : String) (index : Nat)
    (data : List Nat) :
    Mesh.store_remote_chunk base () peer path index data =
      Mesh.internal_store_local_chunk base path index peer.node_id
        data "" ∧
    Mesh.store_remote_chunk base () peer path index data =
      [Mesh.MeshEffect.createDirAll (base ++ "/" ++ peer.node_id),
       Mesh.MeshEffect.writeFile
         (base ++ "/" ++ peer.node_id ++ "/chunk_" ++ toString index)
         data] ∧
    (Mesh.store_remote_chunk base () peer path index data).all
      (fun e => !(Mesh.MeshEffect.isUdpSend e)) = true :=
  ⟨rfl, rfl, rfl⟩

/-- Claim C9: `classify_nat` returns FullCone on equal observations,
PortRestrictedCone on same ip with different port, Symmetric otherwise
(necessarily a different ip), and never returns Unknown or
RestrictedCone — the final `Ok(Unknown)` branch is unreachable. -/
theorem c9_classify_nat_three_outcomes (o1 o2 : NatClass.SockAddr) :
    NatClass.classify_nat o1 o2 =
      Except.ok (if o1 = o2 then NatClass.NatType.FullCone
        else if o1.ip = o2.ip then NatClass.NatType.PortRestrictedCone
        else NatClass.NatType.Symmetric) ∧
    NatClass.classify_nat o1 o2 ≠ Except.ok NatClass.NatType.Unknown ∧
    NatClass.classify_nat o1 o2 ≠
      Except.ok NatClass.NatType.RestrictedCone := by
  unfold NatClass.classify_nat
  by_cases h12 : o1 = o2
  · simp [h12]
  · by_cases hip : o1.ip = o2.ip
    · have hport : o1.port ≠ o2.port := fun hp =>
        h12 (by cases o1; cases o2; simp_all)
      simp [h12, hip, hport]
    · simp [h12, hip]

/-- Claim C1, counterexample: with an empty cache, an empty controller
and inode 1 (which resolves to the root path), `write` fails with ENOENT
and performs no effect at all — in particular no `create` RPC — although
the path resolved and the metadata authority had no entry.  The claim
said `write` first creates the file and does not fail with ENOENT. -/
theorem c1_write_missing_metadata_cex :
    Agent.write c1Env c1Fs c1Ctrl c1Cluster 1 0 [5] =
      ⟨Except.error Agent.FuseErr.enoent, [], []⟩ := rfl

/-- Claim C1, amended: `write` does NOT auto-create missing metadata.
Whenever the path resolves but `get_entry` finds no entry (not cached
and a 404 from the authority), `write` returns ENOENT having performed
no effect — no `create` call, no chunk store, no metadata update. -/
theorem c1_write_enoent_without_create (env : Agent.WriteEnv)
    (fs : Agent.AgentFs) (ctrl : String → Option FsEntry)
    (cluster : Alloc.ClusterState) (ino offset : Nat) (data : List Nat)
    (path : String)
    (h1 : Agent.path_from_ino env fs.cache ino = some path)
    (h2 : (Agent.get_entry ctrl fs.cache path).1 = none) :
    Agent.write env fs ctrl cluster ino offset data =
      ⟨Except.error Agent.FuseErr.enoent, [],
        (Agent.get_entry ctrl fs.cache path).2⟩ := by
  rcases hge : Agent.get_entry ctrl fs.cache path with ⟨a, b⟩
  rw [hge] at h2
  change a = none at h2
  subst h2
  simp only [Agent.write, h1, hge]

/-- Claim C1, witness for the amended theorem: the concrete C1 scenario
at offset 2 with one byte of data. -/
theorem c1_write_enoent_without_create_w :
    (Agent.path_from_ino c1Env c1Fs.cache 1 = some "/" ∧
      (Agent.get_entry c1Ctrl c1Fs.cache "/").1 = none) ∧
    Agent.write c1Env c1Fs c1Ctrl c1Cluster 1 2 [7] =
      ⟨Except.error Agent.FuseErr.enoent, [],
        (Agent.get_entry c1Ctrl c1Fs.cache "/").2⟩ :=
  ⟨⟨rfl, rfl⟩,
    c1_write_enoent_without_create c1Env c1Fs c1Ctrl c1Cluster 1 2 [7] "/"
      rfl rfl⟩

/-- Claim C2 (code bug evidence): a zero-length write at offset 0 to the
cached chunkless File `/a` is NOT a no-op returning 0.  `end_pos` is 0,
so the loop bound `(end_pos - 1) / CHUNK` underflows: debug builds panic
at the subtraction; with release (wrapping) semantics, modelled here,
the loop range becomes `0 ..= (2^64 - 1)/65536`, iteration 0 allocates
and stores a zeroed chunk (one effect, shown below), and iteration 1
panics slicing `data[65536..0]`. -/
theorem c2_write_zero_len_panics :
    (Agent.write c2Env c2Fs c2Ctrl c2Cluster 2 0 []).result =
      Except.error Agent.FuseErr.crash ∧
    (Agent.write c2Env c2Fs c2Ctrl c2Cluster 2 0 []).effects.length = 1 :=
  ⟨rfl, rfl⟩
